import Mathlib

/-!
Shallow embedding of the reservation core of the doctor-appointment backend
(`src/services/bookingService.js`, schema in `src/database/schema.sql`).

The database state is modelled as two lists of rows (`appointment_slots` and
`bookings`) plus the next value of the `bookings.id` serial sequence.
Timestamps are integers; the JS code combines `slot_date` and `slot_time`
into one `slotDateTime` value before comparing, and we keep that combined
representation.  Each service method runs one SQL transaction; an error
branch issues ROLLBACK, so the embedding returns the pre-call state paired
with the error, and a success returns the committed state.  Audit columns
maintained by triggers (`created_at`, `updated_at`) are omitted; the
columns the service reads or writes (`status`, `booking_time`,
`confirmed_at`, `failed_at`, `failure_reason`, `is_available`) are kept.
-/

namespace Appt

/-- Reservation status, the CHECK-constrained `bookings.status` column. -/
inductive Status where
  | pending
  | confirmed
  | failed
  | cancelled
deriving DecidableEq, Repr

/-- A row of `appointment_slots`.  `slotDateTime` is the combined
`slot_date`/`slot_time` timestamp the service compares against `new Date()`. -/
structure Slot where
  id : Nat
  doctorId : Nat
  slotDateTime : Int
  durationMinutes : Nat
  is_available : Bool
deriving DecidableEq, Repr

/-- A row of `bookings`. -/
structure Booking where
  id : Nat
  slotId : Nat
  patientName : String
  patientEmail : String
  patientPhone : Option String
  status : Status
  bookingTime : Int
  confirmedAt : Option Int
  failedAt : Option Int
  failureReason : Option String
deriving DecidableEq, Repr

/-- The database: both tables plus the serial sequence for `bookings.id`. -/
structure DB where
  slots : List Slot
  bookings : List Booking
  nextBookingId : Nat
deriving DecidableEq, Repr

/-- Errors raised by `createBooking` (the spec's NotFound /
Conflict "slot unavailable" / InvalidState "past slot"). -/
inductive BookingError where
  | slotNotFound
  | slotUnavailable
  | pastAppointment
deriving DecidableEq, Repr

/-- Errors raised by `cancelBooking` (the spec's NotFound /
InvalidState "already cancelled"). -/
inductive CancelError where
  | bookingNotFound
  | alreadyCancelled
deriving DecidableEq, Repr

/-- `UPDATE ... SET ... WHERE id = k`: apply `f` to every row whose id is `k`. -/
def updateById {α : Type} (idOf : α → Nat) (k : Nat) (f : α → α) (l : List α) : List α :=
  l.map (fun a => if idOf a == k then f a else a)

/-- `SELECT ... FROM appointment_slots WHERE id = $1` (the service uses `rows[0]`). -/
def findSlot (db : DB) (slotId : Nat) : Option Slot :=
  db.slots.find? (fun s => s.id == slotId)

/-- `SELECT * FROM bookings WHERE id = $1` (the service uses `rows[0]`). -/
def findBooking (db : DB) (bookingId : Nat) : Option Booking :=
  db.bookings.find? (fun b => b.id == bookingId)

/-- `INSERT INTO bookings (slot_id, ..., status) VALUES (..., 'PENDING')`:
appends a fresh PENDING row with the next serial id. -/
def insertPendingBooking (db : DB) (slotId : Nat) (patientName patientEmail : String)
    (patientPhone : Option String) (now : Int) : DB × Booking :=
  let b : Booking :=
    { id := db.nextBookingId, slotId := slotId, patientName := patientName,
      patientEmail := patientEmail, patientPhone := patientPhone,
      status := Status.pending, bookingTime := now,
      confirmedAt := none, failedAt := none, failureReason := none }
  ({ db with bookings := db.bookings ++ [b], nextBookingId := db.nextBookingId + 1 }, b)

/-- `UPDATE appointment_slots SET is_available = FALSE WHERE id = $1`. -/
def markSlotUnavailable (db : DB) (slotId : Nat) : DB :=
  { db with slots := updateById Slot.id slotId (fun s => { s with is_available := false }) db.slots }

/-- The CONFIRMED version of a booking row, with confirmed-at stamped. -/
def confirmedRow (b : Booking) (now : Int) : Booking :=
  { b with status := Status.confirmed, confirmedAt := some now }

/-- `UPDATE bookings SET status = 'CONFIRMED', confirmed_at = CURRENT_TIMESTAMP WHERE id = $1`. -/
def confirmBooking (db : DB) (bookingId : Nat) (now : Int) : DB :=
  { db with bookings := (updateById Booking.id bookingId
      (fun b => { b with status := Status.confirmed, confirmedAt := some now }) db.bookings) }

/-- BookingService.createBooking: one SERIALIZABLE transaction that locks the
slot row, validates (exists, available, not in the past), inserts a PENDING
booking, marks the slot unavailable, confirms the booking, and commits.
Any error rolls back, leaving the state unchanged.  The source's post-commit
re-fetch by primary key returns the confirmed row, which is returned here
directly. -/
def createBooking (db : DB) (slotId : Nat) (patientName patientEmail : String)
    (patientPhone : Option String) (now : Int) : Except BookingError Booking × DB :=
  match findSlot db slotId with
  | none => (Except.error BookingError.slotNotFound, db)
  | some slot =>
    if slot.is_available = false then
      (Except.error BookingError.slotUnavailable, db)
    else if slot.slotDateTime < now then
      (Except.error BookingError.pastAppointment, db)
    else
      let ins := insertPendingBooking db slotId patientName patientEmail patientPhone now
      let db2 := markSlotUnavailable ins.1 slotId
      let db3 := confirmBooking db2 ins.2.id now
      (Except.ok { ins.2 with status := Status.confirmed, confirmedAt := some now }, db3)

/-- BookingService.cancelBooking: one transaction that locks the booking row,
rejects a missing or already-CANCELLED booking, otherwise sets the status to
CANCELLED and releases the slot (`is_available = TRUE`), and commits.
Any error rolls back. -/
def cancelBooking (db : DB) (bookingId : Nat) : Except CancelError Unit × DB :=
  match findBooking db bookingId with
  | none => (Except.error CancelError.bookingNotFound, db)
  | some b =>
    if b.status = Status.cancelled then
      (Except.error CancelError.alreadyCancelled, db)
    else
      let db1 := { db with bookings := (updateById Booking.id bookingId
        (fun x => { x with status := Status.cancelled }) db.bookings) }
      let db2 := { db1 with slots := (updateById Slot.id b.slotId
        (fun s => { s with is_available := true }) db1.slots) }
      (Except.ok (), db2)

/-- The `failure_reason` text written by the expiry sweep. -/
def timeoutReason (timeoutMinutes : Int) : String :=
  "Booking timeout - not confirmed within " ++ toString timeoutMinutes ++ " minutes"

/-- The sweep's WHERE clause: `status = 'PENDING' AND booking_time < NOW() - INTERVAL '.. minutes'`. -/
def isExpiredPending (timeoutMinutes now : Int) (b : Booking) : Bool :=
  b.status == Status.pending && decide (b.bookingTime < now - timeoutMinutes)

/-- The sweep's SET clause: `status = 'FAILED', failed_at = CURRENT_TIMESTAMP,
failure_reason = <timeout message>`. -/
def failRow (timeoutMinutes now : Int) (b : Booking) : Booking :=
  { b with status := Status.failed, failedAt := some now,
           failureReason := some (timeoutReason timeoutMinutes) }

/-- The sweep's SET clause applied to a row when the WHERE clause matches. -/
def failExpired (timeoutMinutes now : Int) (b : Booking) : Booking :=
  if isExpiredPending timeoutMinutes now b then failRow timeoutMinutes now b
  else b

/-- BookingService.expirePendingBookings: one transaction that fails every
stale PENDING booking (stamping `failed_at` and the timeout reason), releases
the slots those bookings reference, commits, and reports how many rows were
expired. -/
def expirePendingBookings (db : DB) (timeoutMinutes : Int) (now : Int) : Nat × DB :=
  let expired := db.bookings.filter (isExpiredPending timeoutMinutes now)
  let slotIds := expired.map Booking.slotId
  let db1 := { db with bookings := db.bookings.map (failExpired timeoutMinutes now) }
  let db2 := { db1 with slots := db1.slots.map (fun s =>
    if slotIds.contains s.id then { s with is_available := true } else s) }
  (expired.length, db2)

/-- One committed service call, for reasoning about reachable states. -/
inductive Step where
  | create (slotId : Nat) (patientName patientEmail : String)
      (patientPhone : Option String) (now : Int)
  | cancel (bookingId : Nat)
  | sweep (timeoutMinutes now : Int)

/-- The committed state after one service call. -/
def applyStep (db : DB) : Step → DB
  | Step.create sid n e p now => (createBooking db sid n e p now).2
  | Step.cancel bid => (cancelBooking db bid).2
  | Step.sweep m now => (expirePendingBookings db m now).2

/-- The committed state after a sequence of service calls. -/
def runSteps (db : DB) : List Step → DB
  | [] => db
  | st :: rest => runSteps (applyStep db st) rest

/-- A booking status that still holds its slot (PENDING or CONFIRMED). -/
def isActive (st : Status) : Bool :=
  st == Status.pending || st == Status.confirmed

/-- Number of PENDING/CONFIRMED bookings referencing a given slot. -/
def activeCount (db : DB) (slotId : Nat) : Nat :=
  db.bookings.countP (fun b => b.slotId == slotId && isActive b.status)

/-- The spec's slot invariant: a slot is unavailable iff exactly one active
booking references it, and never more than one. -/
def slotInvariant (db : DB) : Prop :=
  ∀ s ∈ db.slots,
    (s.is_available = false ↔ activeCount db s.id = 1) ∧ activeCount db s.id ≤ 1

/-- Primary-key/serial well-formedness of the database. -/
def wfIds (db : DB) : Prop :=
  (db.slots.map Slot.id).Nodup ∧ (db.bookings.map Booking.id).Nodup ∧
  ∀ b ∈ db.bookings, b.id < db.nextBookingId

/-- Every committed booking is CONFIRMED or CANCELLED (createBooking confirms
synchronously inside its transaction, so no PENDING/FAILED row is ever
committed by the three service calls starting from an empty bookings table). -/
def statusesCommitted (db : DB) : Prop :=
  ∀ b ∈ db.bookings, b.status = Status.confirmed ∨ b.status = Status.cancelled

/-- Inductive invariant carried through every committed service call. -/
def goodState (db : DB) : Prop :=
  wfIds db ∧ statusesCommitted db ∧ slotInvariant db

/-- Initial database for reachability arguments: administratively created
slots (all available, distinct ids) and no bookings. -/
def initDB (slots0 : List Slot) : DB :=
  { slots := slots0, bookings := [], nextBookingId := 1 }

/-- Requester data of one `create` call. -/
structure CreateRequest where
  patientName : String
  patientEmail : String
  patientPhone : Option String
deriving DecidableEq, Repr

/-- N concurrent `create` calls against one slot: the row-level exclusive lock
(`SELECT ... FOR UPDATE` under SERIALIZABLE) admits one claimant at a time, so
any N-way concurrent batch executes as this sequential fold in the lock-grant
order; the list order ranges over all such orders. -/
def runCreates (db : DB) (slotId : Nat) (now : Int) :
    List CreateRequest → List (Except BookingError Booking) × DB
  | [] => ([], db)
  | r :: rs =>
    let step := createBooking db slotId r.patientName r.patientEmail r.patientPhone now
    let rest := runCreates step.2 slotId now rs
    (step.1 :: rest.1, rest.2)

/-- Fixture: an available future slot. -/
def exSlot : Slot :=
  { id := 1, doctorId := 1, slotDateTime := 1000, durationMinutes := 30, is_available := true }

/-- Fixture: fresh database holding only `exSlot`. -/
def exDB : DB := initDB [exSlot]

/-- Fixture: the booking row produced by booking `exSlot` at instant 1000. -/
def exEveBooking : Booking :=
  { id := 1, slotId := 1, patientName := "Eve", patientEmail := "eve@x.com",
    patientPhone := none, status := Status.confirmed, bookingTime := 1000,
    confirmedAt := some 1000, failedAt := none, failureReason := none }

/-- Fixture: a FAILED booking on slot 1 (as left by the expiry sweep). -/
def exFailedBooking : Booking :=
  { id := 1, slotId := 1, patientName := "P1", patientEmail := "p1@x.com", patientPhone := none,
    status := Status.failed, bookingTime := 0, confirmedAt := none, failedAt := some 5,
    failureReason := some (timeoutReason 2) }

/-- Fixture: a CONFIRMED booking that re-claimed slot 1 after the sweep. -/
def exConfirmedBooking : Booking :=
  { id := 2, slotId := 1, patientName := "P2", patientEmail := "p2@x.com", patientPhone := none,
    status := Status.confirmed, bookingTime := 6, confirmedAt := some 6, failedAt := none,
    failureReason := none }

/-- Fixture: slot 1 re-claimed by booking 2 while booking 1 sits FAILED. -/
def exDBFailed : DB :=
  { slots := [{ exSlot with is_available := false }],
    bookings := [exFailedBooking, exConfirmedBooking], nextBookingId := 3 }

/-- Fixture: a stale PENDING booking (bookingTime 0) on slot 1. -/
def exPendingOld : Booking :=
  { id := 1, slotId := 1, patientName := "Q1", patientEmail := "q1@x.com", patientPhone := none,
    status := Status.pending, bookingTime := 0, confirmedAt := none, failedAt := none,
    failureReason := none }

/-- Fixture: a fresh PENDING booking (bookingTime 99) on slot 2. -/
def exPendingNew : Booking :=
  { id := 2, slotId := 2, patientName := "Q2", patientEmail := "q2@x.com", patientPhone := none,
    status := Status.pending, bookingTime := 99, confirmedAt := none, failedAt := none,
    failureReason := none }

/-- Fixture: two held slots with one stale and one fresh PENDING booking. -/
def exDBPending : DB :=
  { slots := [{ exSlot with is_available := false },
              { exSlot with id := 2, is_available := false }],
    bookings := [exPendingOld, exPendingNew], nextBookingId := 3 }

/-- Fixture: the booking row produced by booking `exSlot` at instant 500. -/
def exAnnBooking : Booking :=
  { id := 1, slotId := 1, patientName := "Ann", patientEmail := "ann@x.com",
    patientPhone := none, status := Status.confirmed, bookingTime := 500,
    confirmedAt := some 500, failedAt := none, failureReason := none }

/-- Fixture: the database after Ann books the example slot. -/
def exDBAfterAnn : DB := (createBooking exDB 1 "Ann" "ann@x.com" none 500).2

/-- Fixture: a sequence of service calls — book, cancel, re-book. -/
def exSteps : List Step :=
  [Step.create 1 "Ann" "ann@x.com" none 500, Step.cancel 1,
   Step.create 1 "Bob" "bob@x.com" none 600]

/-- The status edges the spec allows (identity = row not touched). -/
def allowedEdge (a b : Status) : Prop :=
  a = b ∨ (a = Status.pending ∧ b = Status.confirmed) ∨
  (a = Status.pending ∧ b = Status.failed) ∨
  (a = Status.confirmed ∧ b = Status.cancelled) ∨
  (a = Status.pending ∧ b = Status.cancelled)

/-! ### Generic lemmas about row updates keyed by id -/

theorem map_eq_self_of_forall {α : Type} (f : α → α) :
    ∀ (l : List α), (∀ a ∈ l, f a = a) → l.map f = l := by
  intro l h
  induction l with
  | nil => rfl
  | cons a t ih =>
    simp only [List.map_cons]
    rw [h a (List.mem_cons_self a t), ih fun x hx => h x (List.mem_cons_of_mem a hx)]

theorem updateById_eq_self {α : Type} (idOf : α → Nat) (k : Nat) (f : α → α)
    (l : List α) (h : ∀ a ∈ l, (idOf a == k) = false) :
    updateById idOf k f l = l := by
  apply map_eq_self_of_forall
  intro a ha
  simp [h a ha]

theorem updateById_append {α : Type} (idOf : α → Nat) (k : Nat) (f : α → α)
    (l₁ l₂ : List α) :
    updateById idOf k f (l₁ ++ l₂) = updateById idOf k f l₁ ++ updateById idOf k f l₂ :=
  List.map_append _ _ _

theorem updateById_cons {α : Type} (idOf : α → Nat) (k : Nat) (f : α → α)
    (a : α) (t : List α) :
    updateById idOf k f (a :: t) =
      (if idOf a == k then f a else a) :: updateById idOf k f t := rfl

theorem tail_no_key {α : Type} (idOf : α → Nat) (k : Nat) (x : α) (t : List α)
    (hx : idOf x = k) (hnotin : idOf x ∉ t.map idOf) :
    ∀ a ∈ t, (idOf a == k) = false := by
  intro a ha
  rw [beq_eq_false_iff_ne]
  intro hak
  exact hnotin (by rw [hx, ← hak]; exact List.mem_map_of_mem idOf ha)

theorem find?_updateById_self {α : Type} (idOf : α → Nat) (k : Nat) (f : α → α)
    (hf : ∀ a, idOf (f a) = idOf a) :
    ∀ (l : List α),
      (updateById idOf k f l).find? (fun a => idOf a == k) =
        (l.find? (fun a => idOf a == k)).map f := by
  intro l
  induction l with
  | nil => rfl
  | cons a t ih =>
    by_cases h : (idOf a == k) = true
    · rw [updateById_cons, if_pos h, List.find?_cons_of_pos (p := fun a => idOf a == k) _ (by simpa [hf] using h),
        List.find?_cons_of_pos (p := fun a => idOf a == k) _ h, Option.map_some']
    · rw [updateById_cons, if_neg h, List.find?_cons_of_neg (p := fun a => idOf a == k) _ (by simpa using h), ih,
        List.find?_cons_of_neg (p := fun a => idOf a == k) _ (by simpa using h)]

theorem mem_updateById_of_pred {α : Type} (idOf : α → Nat) (k : Nat) (f : α → α)
    (l : List α) (b : α) (hb : b ∈ l) (hk : (idOf b == k) = true) :
    f b ∈ updateById idOf k f l := by
  have h := List.mem_map_of_mem (fun a => if idOf a == k then f a else a) hb
  simp only [hk, if_true] at h
  exact h

theorem mem_updateById_of_ne {α : Type} (idOf : α → Nat) (k : Nat) (f : α → α)
    (l : List α) (b : α) (hb : b ∈ l) (hk : (idOf b == k) = false) :
    b ∈ updateById idOf k f l := by
  have h := List.mem_map_of_mem (fun a => if idOf a == k then f a else a) hb
  simp only [hk, Bool.false_eq_true, if_false] at h
  exact h

theorem nodup_mem_eq_of_id_eq {α : Type} (idOf : α → Nat) :
    ∀ (l : List α), (l.map idOf).Nodup → ∀ a ∈ l, ∀ b ∈ l, idOf a = idOf b → a = b := by
  intro l
  induction l with
  | nil => intro _ a ha; exact absurd ha (List.not_mem_nil a)
  | cons x t ih =>
    intro hnd a ha b hb hab
    simp only [List.map_cons, List.nodup_cons] at hnd
    rcases List.mem_cons.mp ha with rfl | ha' <;> rcases List.mem_cons.mp hb with rfl | hb'
    · rfl
    · exact absurd (hab ▸ List.mem_map_of_mem idOf hb') hnd.1
    · exact absurd (hab ▸ List.mem_map_of_mem idOf ha') hnd.1
    · exact ih hnd.2 a ha' b hb' hab

theorem countP_updateById_none {α : Type} (idOf : α → Nat) (k : Nat) (f : α → α)
    (p : α → Bool) (l : List α)
    (h : l.find? (fun a => idOf a == k) = none) :
    (updateById idOf k f l).countP p = l.countP p := by
  rw [updateById_eq_self idOf k f l]
  intro a ha
  have := List.find?_eq_none.mp h a ha
  simpa using this

theorem countP_updateById_found {α : Type} (idOf : α → Nat) (k : Nat) (f : α → α)
    (p : α → Bool) :
    ∀ (l : List α), (l.map idOf).Nodup → ∀ b, l.find? (fun a => idOf a == k) = some b →
      (updateById idOf k f l).countP p + (if p b then 1 else 0) =
        l.countP p + (if p (f b) then 1 else 0) := by
  intro l
  induction l with
  | nil => intro _ b hfind; exact absurd hfind (by simp)
  | cons x t ih =>
    intro hnd b hfind
    simp only [List.map_cons, List.nodup_cons] at hnd
    by_cases hx : (idOf x == k) = true
    · rw [List.find?_cons_of_pos (p := fun a => idOf a == k) _ hx] at hfind
      injection hfind with hb
      subst hb
      have ht : updateById idOf k f t = t :=
        updateById_eq_self idOf k f t (tail_no_key idOf k x t (beq_iff_eq.mp hx) hnd.1)
      rw [updateById_cons, if_pos hx, ht, List.countP_cons, List.countP_cons]
      omega
    · rw [List.find?_cons_of_neg (p := fun a => idOf a == k) _ (by simpa using hx)] at hfind
      have hih := ih hnd.2 b hfind
      rw [updateById_cons, if_neg (by simpa using hx), List.countP_cons, List.countP_cons]
      omega

theorem updateById_eq_set {α : Type} (idOf : α → Nat) (k : Nat) (f : α → α) :
    ∀ (l : List α), (l.map idOf).Nodup → ∀ b, l.find? (fun a => idOf a == k) = some b →
      ∃ i, l.get? i = some b ∧ updateById idOf k f l = l.set i (f b) := by
  intro l
  induction l with
  | nil => intro _ b hfind; exact absurd hfind (by simp)
  | cons x t ih =>
    intro hnd b hfind
    simp only [List.map_cons, List.nodup_cons] at hnd
    by_cases hx : (idOf x == k) = true
    · rw [List.find?_cons_of_pos (p := fun a => idOf a == k) _ hx] at hfind
      injection hfind with hb
      subst hb
      refine ⟨0, rfl, ?_⟩
      have ht : updateById idOf k f t = t :=
        updateById_eq_self idOf k f t (tail_no_key idOf k x t (beq_iff_eq.mp hx) hnd.1)
      rw [updateById_cons, if_pos hx, ht]
      rfl
    · rw [List.find?_cons_of_neg (p := fun a => idOf a == k) _ (by simpa using hx)] at hfind
      obtain ⟨i, hget, hset⟩ := ih hnd.2 b hfind
      refine ⟨i + 1, hget, ?_⟩
      rw [updateById_cons, if_neg (by simpa using hx), hset]
      rfl

/-! ### Branch characterizations of the three service calls -/

theorem createBooking_notFound_eq (db : DB) (sid : Nat) (n e : String) (p : Option String)
    (now : Int) (hfind : findSlot db sid = none) :
    createBooking db sid n e p now = (Except.error BookingError.slotNotFound, db) := by
  unfold createBooking
  rw [hfind]

theorem createBooking_unavailable_eq (db : DB) (sid : Nat) (n e : String) (p : Option String)
    (now : Int) (slot : Slot) (hfind : findSlot db sid = some slot)
    (hav : slot.is_available = false) :
    createBooking db sid n e p now = (Except.error BookingError.slotUnavailable, db) := by
  unfold createBooking
  rw [hfind]
  simp only [hav, if_true]

theorem createBooking_past_eq (db : DB) (sid : Nat) (n e : String) (p : Option String)
    (now : Int) (slot : Slot) (hfind : findSlot db sid = some slot)
    (hav : slot.is_available = true) (hpast : slot.slotDateTime < now) :
    createBooking db sid n e p now = (Except.error BookingError.pastAppointment, db) := by
  unfold createBooking
  rw [hfind]
  simp [hav, hpast]

theorem createBooking_success_eq (db : DB) (sid : Nat) (n e : String) (p : Option String)
    (now : Int) (slot : Slot) (hfind : findSlot db sid = some slot)
    (hav : slot.is_available = true) (hfut : ¬ slot.slotDateTime < now) :
    createBooking db sid n e p now =
      (Except.ok { (insertPendingBooking db sid n e p now).2 with
          status := Status.confirmed, confirmedAt := some now },
       confirmBooking (markSlotUnavailable (insertPendingBooking db sid n e p now).1 sid)
         (insertPendingBooking db sid n e p now).2.id now) := by
  unfold createBooking
  rw [hfind]
  simp [hav, hfut]

theorem createBooking_error_rollback (db : DB) (sid : Nat) (n e : String) (p : Option String)
    (now : Int) (err : BookingError)
    (h : (createBooking db sid n e p now).1 = Except.error err) :
    (createBooking db sid n e p now).2 = db := by
  rcases hfind : findSlot db sid with _ | slot
  · rw [createBooking_notFound_eq db sid n e p now hfind]
  · by_cases hav : slot.is_available = true
    · by_cases hpast : slot.slotDateTime < now
      · rw [createBooking_past_eq db sid n e p now slot hfind hav hpast]
      · rw [createBooking_success_eq db sid n e p now slot hfind hav hpast] at h
        exact absurd h (by simp)
    · rw [createBooking_unavailable_eq db sid n e p now slot hfind
        (Bool.not_eq_true _ ▸ hav)]

theorem createBooking_success_state (db : DB) (sid : Nat) (n e : String) (p : Option String)
    (now : Int) (slot : Slot)
    (hfresh : ∀ x ∈ db.bookings, x.id < db.nextBookingId)
    (hfind : findSlot db sid = some slot)
    (hav : slot.is_available = true) (hfut : ¬ slot.slotDateTime < now) :
    (createBooking db sid n e p now).1 =
      Except.ok { (insertPendingBooking db sid n e p now).2 with
        status := Status.confirmed, confirmedAt := some now } ∧
    (createBooking db sid n e p now).2.slots =
      updateById Slot.id sid (fun s => { s with is_available := false }) db.slots ∧
    (createBooking db sid n e p now).2.bookings =
      db.bookings ++ [{ (insertPendingBooking db sid n e p now).2 with
        status := Status.confirmed, confirmedAt := some now }] ∧
    (createBooking db sid n e p now).2.nextBookingId = db.nextBookingId + 1 := by
  rw [createBooking_success_eq db sid n e p now slot hfind hav hfut]
  refine ⟨rfl, rfl, ?_, rfl⟩
  show updateById Booking.id db.nextBookingId _ (db.bookings ++ [_]) = _
  rw [updateById_append]
  rw [updateById_eq_self _ _ _ db.bookings
    (fun x hx => beq_eq_false_iff_ne.mpr (Nat.ne_of_lt (hfresh x hx)))]
  simp [updateById, insertPendingBooking]

theorem updateById_map_id {α : Type} (idOf : α → Nat) (k : Nat) (f : α → α)
    (hf : ∀ a, idOf (f a) = idOf a) :
    ∀ (l : List α), (updateById idOf k f l).map idOf = l.map idOf := by
  intro l
  induction l with
  | nil => rfl
  | cons a t ih =>
    rw [updateById_cons]
    by_cases h : (idOf a == k) = true
    · rw [if_pos h]
      simp only [List.map_cons, hf, ih]
    · rw [if_neg h]
      simp only [List.map_cons, ih]

theorem findSlot_props (db : DB) (sid : Nat) (slot : Slot)
    (h : findSlot db sid = some slot) : slot ∈ db.slots ∧ slot.id = sid := by
  unfold findSlot at h
  exact ⟨List.mem_of_find?_eq_some h, by simpa using List.find?_some h⟩

theorem findBooking_props (db : DB) (bid : Nat) (b : Booking)
    (h : findBooking db bid = some b) : b ∈ db.bookings ∧ b.id = bid := by
  unfold findBooking at h
  exact ⟨List.mem_of_find?_eq_some h, by simpa using List.find?_some h⟩

theorem expirePendingBookings_no_stale (db : DB) (m now : Int)
    (h : ∀ b ∈ db.bookings, isExpiredPending m now b = false) :
    expirePendingBookings db m now = (0, db) := by
  have hfil : db.bookings.filter (isExpiredPending m now) = [] := by
    rw [List.filter_eq_nil_iff]
    intro a ha
    simp [h a ha]
  unfold expirePendingBookings
  rw [hfil]
  simp only [List.length_nil, List.map_nil]
  rw [map_eq_self_of_forall _ db.bookings (fun b hb => by unfold failExpired; simp [h b hb])]
  rw [map_eq_self_of_forall _ db.slots (fun s _ => by simp)]

theorem cancelBooking_notFound_eq (db : DB) (bid : Nat)
    (h : findBooking db bid = none) :
    cancelBooking db bid = (Except.error CancelError.bookingNotFound, db) := by
  unfold cancelBooking
  rw [h]

theorem cancelBooking_already_eq (db : DB) (bid : Nat) (b : Booking)
    (h : findBooking db bid = some b) (hc : b.status = Status.cancelled) :
    cancelBooking db bid = (Except.error CancelError.alreadyCancelled, db) := by
  unfold cancelBooking
  rw [h]
  simp [hc]

theorem cancelBooking_success_eq (db : DB) (bid : Nat) (b : Booking)
    (h : findBooking db bid = some b) (hc : b.status ≠ Status.cancelled) :
    cancelBooking db bid =
      (Except.ok (),
       { slots := updateById Slot.id b.slotId (fun s => { s with is_available := true }) db.slots,
         bookings := updateById Booking.id bid
           (fun x => { x with status := Status.cancelled }) db.bookings,
         nextBookingId := db.nextBookingId }) := by
  unfold cancelBooking
  rw [h]
  simp [hc]

/-! ### Preservation of the inductive invariant by every committed call -/

theorem goodState_createBooking (db : DB) (sid : Nat) (n e : String) (p : Option String)
    (now : Int) (hg : goodState db) : goodState (createBooking db sid n e p now).2 := by
  obtain ⟨⟨hslotnd, hbooknd, hfresh⟩, hstatus, hinv⟩ := hg
  rcases hfind : findSlot db sid with _ | slot
  · rw [createBooking_notFound_eq db sid n e p now hfind]
    exact ⟨⟨hslotnd, hbooknd, hfresh⟩, hstatus, hinv⟩
  · by_cases hav : slot.is_available = true
    · by_cases hpast : slot.slotDateTime < now
      · rw [createBooking_past_eq db sid n e p now slot hfind hav hpast]
        exact ⟨⟨hslotnd, hbooknd, hfresh⟩, hstatus, hinv⟩
      · obtain ⟨hres, hslots, hbooks, hnext⟩ :=
          createBooking_success_state db sid n e p now slot hfresh hfind hav hpast
        have hslotmem := (findSlot_props db sid slot hfind).1
        have hslotid := (findSlot_props db sid slot hfind).2
        set confB : Booking := { (insertPendingBooking db sid n e p now).2 with
          status := Status.confirmed, confirmedAt := some now } with hconfB
        have hconfid : confB.id = db.nextBookingId := rfl
        have hconfslot : confB.slotId = sid := rfl
        have hconfst : confB.status = Status.confirmed := rfl
        have hac : ∀ j, activeCount (createBooking db sid n e p now).2 j =
            activeCount db j + (if (sid == j) = true then 1 else 0) := by
          intro j
          unfold activeCount
          rw [hbooks, List.countP_append, List.countP_cons, List.countP_nil]
          simp only [hconfslot, hconfst]
          simp [isActive, show (insertPendingBooking db sid n e p now).2.slotId = sid from rfl]
        refine ⟨⟨?_, ?_, ?_⟩, ?_, ?_⟩
        · rw [hslots, updateById_map_id Slot.id sid
            (fun s => { s with is_available := false }) (fun a => rfl)]
          exact hslotnd
        · rw [hbooks, List.map_append, List.nodup_append]
          refine ⟨hbooknd, List.nodup_singleton _, ?_⟩
          intro x hx
          obtain ⟨y, hy, rfl⟩ := List.mem_map.mp hx
          simp only [List.map_cons, List.map_nil, List.mem_singleton, hconfid]
          exact Nat.ne_of_lt (hfresh y hy)
        · intro x hx
          rw [hbooks] at hx
          rw [hnext]
          rcases List.mem_append.mp hx with hx | hx
          · exact Nat.lt_trans (hfresh x hx) (Nat.lt_succ_self _)
          · rw [List.mem_singleton.mp hx, hconfid]
            exact Nat.lt_succ_self _
        · intro x hx
          rw [hbooks] at hx
          rcases List.mem_append.mp hx with hx | hx
          · exact hstatus x hx
          · rw [List.mem_singleton.mp hx]
            exact Or.inl hconfst
        · intro s2 hs2
          rw [hslots] at hs2
          obtain ⟨s, hs, heq⟩ := List.mem_map.mp hs2
          by_cases hsid : (s.id == sid) = true
          · rw [if_pos hsid] at heq
            subst heq
            have htrue : s.is_available = true := by
              rw [nodup_mem_eq_of_id_eq Slot.id db.slots hslotnd s hs slot hslotmem
                (by rw [beq_iff_eq.mp hsid, hslotid])]
              exact hav
            have h1 := hinv s hs
            have hne : activeCount db s.id ≠ 1 := by
              intro hone
              rw [h1.1.mpr hone] at htrue
              cases htrue
            have hzero : activeCount db s.id = 0 := by omega
            have hsid2 : (sid == s.id) = true := beq_iff_eq.mpr (beq_iff_eq.mp hsid).symm
            have hone : activeCount (createBooking db sid n e p now).2 s.id = 1 := by
              rw [hac s.id, hzero, if_pos hsid2]
            refine ⟨?_, ?_⟩
            · rw [show ({ s with is_available := false } : Slot).id = s.id from rfl, hone]
              simp
            · rw [show ({ s with is_available := false } : Slot).id = s.id from rfl, hone]
          · rw [if_neg hsid] at heq
            subst heq
            have hsid2 : (sid == s.id) = false := by
              rw [beq_eq_false_iff_ne]
              intro hcon
              exact hsid (beq_iff_eq.mpr hcon.symm)
            have hsame : activeCount (createBooking db sid n e p now).2 s.id =
                activeCount db s.id := by
              rw [hac s.id, hsid2]
              simp
            rw [hsame]
            exact hinv s hs
    · rw [createBooking_unavailable_eq db sid n e p now slot hfind (Bool.not_eq_true _ ▸ hav)]
      exact ⟨⟨hslotnd, hbooknd, hfresh⟩, hstatus, hinv⟩

theorem goodState_cancelBooking (db : DB) (bid : Nat) (hg : goodState db) :
    goodState (cancelBooking db bid).2 := by
  obtain ⟨⟨hslotnd, hbooknd, hfresh⟩, hstatus, hinv⟩ := hg
  rcases hfindb : findBooking db bid with _ | b
  · rw [cancelBooking_notFound_eq db bid hfindb]
    exact ⟨⟨hslotnd, hbooknd, hfresh⟩, hstatus, hinv⟩
  · by_cases hc : b.status = Status.cancelled
    · rw [cancelBooking_already_eq db bid b hfindb hc]
      exact ⟨⟨hslotnd, hbooknd, hfresh⟩, hstatus, hinv⟩
    · rw [cancelBooking_success_eq db bid b hfindb hc]
      have hbmem := (findBooking_props db bid b hfindb).1
      have hbid := (findBooking_props db bid b hfindb).2
      have hbconf : b.status = Status.confirmed := by
        rcases hstatus b hbmem with h | h
        · exact h
        · exact absurd h hc
      have hfindraw : db.bookings.find? (fun x => x.id == bid) = some b := hfindb
      set db2 : DB :=
        { slots := updateById Slot.id b.slotId
            (fun s => { s with is_available := true }) db.slots,
          bookings := updateById Booking.id bid
            (fun x => { x with status := Status.cancelled }) db.bookings,
          nextBookingId := db.nextBookingId } with hdb2
      have hac : ∀ j, activeCount db2 j + (if (b.slotId == j) = true then 1 else 0) =
          activeCount db j := by
        intro j
        have hcp := countP_updateById_found Booking.id bid
          (fun x => { x with status := Status.cancelled })
          (fun x => x.slotId == j && isActive x.status) db.bookings hbooknd b hfindraw
        unfold activeCount
        have hpb : (b.slotId == j && isActive b.status) = (b.slotId == j) := by
          rw [hbconf]
          exact Bool.and_true _
        have hpb2 : ((({ b with status := Status.cancelled } : Booking).slotId == j) &&
            isActive ({ b with status := Status.cancelled } : Booking).status) = false := by
          exact Bool.and_false _
        simp only [hpb, hpb2] at hcp
        simp only [Bool.false_eq_true, if_false, Nat.add_zero] at hcp
        exact hcp
      refine ⟨⟨?_, ?_, ?_⟩, ?_, ?_⟩
      · rw [show db2.slots = updateById Slot.id b.slotId
            (fun s => { s with is_available := true }) db.slots from rfl,
          updateById_map_id Slot.id b.slotId
            (fun s => { s with is_available := true }) (fun a => rfl)]
        exact hslotnd
      · rw [show db2.bookings = updateById Booking.id bid
            (fun x => { x with status := Status.cancelled }) db.bookings from rfl,
          updateById_map_id Booking.id bid
            (fun x => { x with status := Status.cancelled }) (fun a => rfl)]
        exact hbooknd
      · intro x hx
        obtain ⟨y, hy, rfl⟩ := List.mem_map.mp hx
        by_cases hyb : (y.id == bid) = true
        · rw [if_pos hyb]
          exact hfresh y hy
        · rw [if_neg hyb]
          exact hfresh y hy
      · intro x hx
        obtain ⟨y, hy, rfl⟩ := List.mem_map.mp hx
        by_cases hyb : (y.id == bid) = true
        · rw [if_pos hyb]
          exact Or.inr rfl
        · rw [if_neg hyb]
          exact hstatus y hy
      · intro s2 hs2
        obtain ⟨s, hs, heq⟩ := List.mem_map.mp hs2
        by_cases hsid : (s.id == b.slotId) = true
        · rw [if_pos hsid] at heq
          subst heq
          have hpos : 0 < activeCount db s.id := by
            unfold activeCount
            rw [List.countP_pos_iff]
            refine ⟨b, hbmem, ?_⟩
            rw [beq_iff_eq.mp hsid, hbconf]
            simp [isActive]
          have hle := (hinv s hs).2
          have hone : activeCount db s.id = 1 := by omega
          have hsid2 : (b.slotId == s.id) = true :=
            beq_iff_eq.mpr (beq_iff_eq.mp hsid).symm
          have hzero : activeCount db2 s.id = 0 := by
            have := hac s.id
            rw [hsid2, if_pos rfl, hone] at this
            omega
          refine ⟨?_, ?_⟩
          · rw [show ({ s with is_available := true } : Slot).id = s.id from rfl, hzero]
            simp
          · rw [show ({ s with is_available := true } : Slot).id = s.id from rfl, hzero]
            omega
        · rw [if_neg hsid] at heq
          subst heq
          have hsid2 : (b.slotId == s.id) = false := by
            rw [beq_eq_false_iff_ne]
            intro hcon
            exact hsid (beq_iff_eq.mpr hcon.symm)
          have hsame : activeCount db2 s.id = activeCount db s.id := by
            have := hac s.id
            rw [hsid2] at this
            simpa using this
          rw [hsame]
          exact hinv s hs

theorem goodState_expirePendingBookings (db : DB) (m now : Int) (hg : goodState db) :
    goodState (expirePendingBookings db m now).2 := by
  have hns : ∀ b ∈ db.bookings, isExpiredPending m now b = false := by
    intro b hb
    rcases hg.2.1 b hb with h | h <;> simp [isExpiredPending, h]
  rw [expirePendingBookings_no_stale db m now hns]
  exact hg

theorem goodState_applyStep (db : DB) (st : Step) (hg : goodState db) :
    goodState (applyStep db st) := by
  cases st with
  | create sid n e p now => exact goodState_createBooking db sid n e p now hg
  | cancel bid => exact goodState_cancelBooking db bid hg
  | sweep m now => exact goodState_expirePendingBookings db m now hg

theorem goodState_runSteps :
    ∀ (l : List Step) (db : DB), goodState db → goodState (runSteps db l) := by
  intro l
  induction l with
  | nil => intro db hg; exact hg
  | cons st rest ih => intro db hg; exact ih _ (goodState_applyStep db st hg)

theorem goodState_initDB (slots0 : List Slot) (hnd : (slots0.map Slot.id).Nodup)
    (hav : ∀ s ∈ slots0, s.is_available = true) : goodState (initDB slots0) := by
  refine ⟨⟨hnd, List.nodup_nil, ?_⟩, ?_, ?_⟩
  · intro b hb
    exact absurd hb (List.not_mem_nil b)
  · intro b hb
    exact absurd hb (List.not_mem_nil b)
  · intro s hs
    have hzero : activeCount (initDB slots0) s.id = 0 := rfl
    refine ⟨?_, ?_⟩
    · rw [hzero, hav s hs]
      simp
    · rw [hzero]
      omega

/-! ### Claim theorems -/

theorem runCreates_unavailable (sid : Nat) (now : Int) :
    ∀ (rs : List CreateRequest) (db : DB) (slot : Slot),
      findSlot db sid = some slot → slot.is_available = false →
      runCreates db sid now rs =
        (List.replicate rs.length (Except.error BookingError.slotUnavailable), db) := by
  intro rs
  induction rs with
  | nil => intro db slot h1 h2; rfl
  | cons r rest ih =>
    intro db slot h1 h2
    have hcb := createBooking_unavailable_eq db sid r.patientName r.patientEmail
      r.patientPhone now slot h1 h2
    unfold runCreates
    rw [hcb]
    dsimp only
    rw [ih db slot h1 h2]
    rfl

theorem findSlot_after_success (db : DB) (sid : Nat) (n e : String) (p : Option String)
    (now : Int) (slot : Slot) (hfind : findSlot db sid = some slot)
    (hav : slot.is_available = true) (hfut : ¬ slot.slotDateTime < now) :
    findSlot (createBooking db sid n e p now).2 sid =
      some { slot with is_available := false } := by
  rw [createBooking_success_eq db sid n e p now slot hfind hav hfut]
  show (updateById Slot.id sid (fun s => { s with is_available := false }) db.slots).find?
    (fun s => s.id == sid) = _
  rw [find?_updateById_self Slot.id sid (fun s => { s with is_available := false })
    (fun a => rfl) db.slots]
  rw [show db.slots.find? (fun s => s.id == sid) = some slot from hfind]
  rfl

/-- C1: with the row-level lock serializing the N concurrent claimants of one
available future slot (the list order ranging over every admission order),
the first admitted call returns a CONFIRMED reservation and every other call
fails with Conflict "slot unavailable"; only the first claimant observes
`is_available = true`. -/
theorem claim1_mutual_exclusion (db : DB) (sid : Nat) (now : Int) (slot : Slot)
    (r : CreateRequest) (rs : List CreateRequest)
    (hfind : findSlot db sid = some slot) (hav : slot.is_available = true)
    (hfut : ¬ slot.slotDateTime < now) :
    ∃ b, (runCreates db sid now (r :: rs)).1 =
        Except.ok b :: List.replicate rs.length (Except.error BookingError.slotUnavailable) ∧
      b.status = Status.confirmed := by
  refine ⟨{ (insertPendingBooking db sid r.patientName r.patientEmail r.patientPhone now).2 with
      status := Status.confirmed, confirmedAt := some now }, ?_, rfl⟩
  have hfind2 := findSlot_after_success db sid r.patientName r.patientEmail r.patientPhone
    now slot hfind hav hfut
  have hsucc := createBooking_success_eq db sid r.patientName r.patientEmail r.patientPhone
    now slot hfind hav hfut
  unfold runCreates
  dsimp only
  rw [runCreates_unavailable sid now rs _ _ hfind2 rfl, hsucc]

/-- C1 witness: three concurrent claimants of the example slot; Alice wins
CONFIRMED, the other two receive Conflict "slot unavailable". -/
theorem claim1_witness :
    ∃ b, (runCreates exDB 1 500
        [⟨"Alice", "alice@x.com", none⟩, ⟨"Bob", "bob@x.com", none⟩,
         ⟨"Cara", "cara@x.com", none⟩]).1 =
        Except.ok b :: List.replicate 2 (Except.error BookingError.slotUnavailable) ∧
      b.status = Status.confirmed :=
  claim1_mutual_exclusion exDB 1 500 exSlot ⟨"Alice", "alice@x.com", none⟩
    [⟨"Bob", "bob@x.com", none⟩, ⟨"Cara", "cara@x.com", none⟩]
    (by decide) (by decide) (by decide)

/-- C2: a failed `create` (any error kind) leaves the whole database exactly
as before the call (full rollback: every slot's availability and the entire
reservation table unchanged); a successful `create` appends exactly one
CONFIRMED reservation and flips exactly one slot row — the target slot,
previously available — to unavailable, all other rows untouched. -/
theorem claim2_atomicity (db : DB) (sid : Nat) (n e : String) (p : Option String)
    (now : Int)
    (hnd : (db.slots.map Slot.id).Nodup)
    (hfresh : ∀ x ∈ db.bookings, x.id < db.nextBookingId) :
    (∀ err, (createBooking db sid n e p now).1 = Except.error err →
      (createBooking db sid n e p now).2 = db) ∧
    (∀ b, (createBooking db sid n e p now).1 = Except.ok b →
      b.status = Status.confirmed ∧
      (createBooking db sid n e p now).2.bookings = db.bookings ++ [b] ∧
      ∃ i slot, db.slots.get? i = some slot ∧ slot.id = sid ∧
        slot.is_available = true ∧
        (createBooking db sid n e p now).2.slots =
          db.slots.set i { slot with is_available := false }) := by
  constructor
  · intro err h
    exact createBooking_error_rollback db sid n e p now err h
  · intro b hb
    rcases hfind : findSlot db sid with _ | slot
    · rw [createBooking_notFound_eq db sid n e p now hfind] at hb
      exact absurd hb (by simp)
    · by_cases hav : slot.is_available = true
      · by_cases hpast : slot.slotDateTime < now
        · rw [createBooking_past_eq db sid n e p now slot hfind hav hpast] at hb
          exact absurd hb (by simp)
        · obtain ⟨hres, hslots, hbooks, hnext⟩ :=
            createBooking_success_state db sid n e p now slot hfresh hfind hav hpast
          rw [hres] at hb
          injection hb with hb
          subst hb
          refine ⟨rfl, hbooks, ?_⟩
          have hfindraw : db.slots.find? (fun s => s.id == sid) = some slot := hfind
          obtain ⟨i, hget, hset⟩ := updateById_eq_set Slot.id sid
            (fun s => { s with is_available := false }) db.slots hnd slot hfindraw
          refine ⟨i, slot, hget, (findSlot_props db sid slot hfind).2, hav, ?_⟩
          rw [hslots, hset]
      · rw [createBooking_unavailable_eq db sid n e p now slot hfind
          (Bool.not_eq_true _ ▸ hav)] at hb
        exact absurd hb (by simp)

/-- C2 witness: a failed create (missing slot 2) leaves the example database
untouched. -/
theorem claim2_witness :
    (createBooking exDB 2 "Ann" "ann@x.com" none 500).2 = exDB :=
  (claim2_atomicity exDB 2 "Ann" "ann@x.com" none 500 (by decide) (by decide)).1
    BookingError.slotNotFound rfl

/-- C3 counterexample: the example slot is scheduled at instant 1000 and the
claim instant is exactly 1000; the claim says this must fail with
InvalidState "past slot", but the service books it successfully (the code
rejects only `slotDateTime < now`, which is false at the boundary). -/
theorem claim3_counterexample :
    (createBooking exDB 1 "Eve" "eve@x.com" none 1000).1 ≠
        Except.error BookingError.pastAppointment ∧
    (createBooking exDB 1 "Eve" "eve@x.com" none 1000).1 = Except.ok exEveBooking := by
  refine ⟨fun h => ?_, rfl⟩
  rw [show (createBooking exDB 1 "Eve" "eve@x.com" none 1000).1 =
    Except.ok exEveBooking from rfl] at h
  exact Except.noConfusion h

/-- C3 (amended): create validates in this exact order — a missing slot fails
with NotFound; else an unavailable slot fails with Conflict "slot
unavailable"; else a slot scheduled strictly BEFORE the claim instant fails
with InvalidState "past slot", while a slot scheduled at or after the claim
instant (including exactly at it) passes validation and is booked. -/
theorem claim3_amended_validation (db : DB) (sid : Nat) (n e : String) (p : Option String)
    (now : Int) :
    (findSlot db sid = none →
      (createBooking db sid n e p now).1 = Except.error BookingError.slotNotFound) ∧
    (∀ slot, findSlot db sid = some slot → slot.is_available = false →
      (createBooking db sid n e p now).1 = Except.error BookingError.slotUnavailable) ∧
    (∀ slot, findSlot db sid = some slot → slot.is_available = true →
      slot.slotDateTime < now →
      (createBooking db sid n e p now).1 = Except.error BookingError.pastAppointment) ∧
    (∀ slot, findSlot db sid = some slot → slot.is_available = true →
      ¬ slot.slotDateTime < now →
      ∃ b, (createBooking db sid n e p now).1 = Except.ok b) := by
  refine ⟨?_, ?_, ?_, ?_⟩
  · intro h
    rw [createBooking_notFound_eq db sid n e p now h]
  · intro slot h hav
    rw [createBooking_unavailable_eq db sid n e p now slot h hav]
  · intro slot h hav hpast
    rw [createBooking_past_eq db sid n e p now slot h hav hpast]
  · intro slot h hav hfut
    exact ⟨_, by rw [createBooking_success_eq db sid n e p now slot h hav hfut]⟩

/-- C3 amended witness: a slot scheduled at 1000 claimed at 2000 is in the
past and is rejected with InvalidState "past slot". -/
theorem claim3_amended_witness :
    (createBooking exDB 1 "Eve" "eve@x.com" none 2000).1 =
      Except.error BookingError.pastAppointment :=
  (claim3_amended_validation exDB 1 "Eve" "eve@x.com" none 2000).2.2.1 exSlot rfl rfl
    (by decide)

/-- C4: for an existing, available, future-scheduled slot, a successful create
first inserts a PENDING reservation, flips the slot to unavailable, then
confirms that same reservation stamping confirmed-at; the committed state is
exactly the result of those three staged writes inside the one transaction,
and the single appended row is CONFIRMED — no successful create leaves a
reservation durably PENDING. -/
theorem claim4_success_path (db : DB) (sid : Nat) (n e : String) (p : Option String)
    (now : Int) (slot : Slot)
    (hfresh : ∀ x ∈ db.bookings, x.id < db.nextBookingId)
    (hfind : findSlot db sid = some slot)
    (hav : slot.is_available = true) (hfut : ¬ slot.slotDateTime < now) :
    ∃ b, (createBooking db sid n e p now).1 = Except.ok b ∧
      (insertPendingBooking db sid n e p now).2.status = Status.pending ∧
      (createBooking db sid n e p now).2 =
        confirmBooking (markSlotUnavailable (insertPendingBooking db sid n e p now).1 sid)
          (insertPendingBooking db sid n e p now).2.id now ∧
      b.id = (insertPendingBooking db sid n e p now).2.id ∧
      b.status = Status.confirmed ∧ b.confirmedAt = some now ∧
      (createBooking db sid n e p now).2.bookings = db.bookings ++ [b] ∧
      ∀ x ∈ (createBooking db sid n e p now).2.bookings,
        x ∈ db.bookings ∨ x.status ≠ Status.pending := by
  obtain ⟨hres, hslots, hbooks, hnext⟩ :=
    createBooking_success_state db sid n e p now slot hfresh hfind hav hfut
  refine ⟨_, hres, rfl,
    (by rw [createBooking_success_eq db sid n e p now slot hfind hav hfut]),
    rfl, rfl, rfl, hbooks, ?_⟩
  intro x hx
  rw [hbooks] at hx
  rcases List.mem_append.mp hx with hx | hx
  · exact Or.inl hx
  · rw [List.mem_singleton.mp hx]
    exact Or.inr (fun hcon => Status.noConfusion hcon)

/-- C4 witness: booking the example slot at instant 1000 runs the staged
insert-PENDING / flip-slot / confirm writes and commits a CONFIRMED row. -/
theorem claim4_witness :
    ∃ b, (createBooking exDB 1 "Eve" "eve@x.com" none 1000).1 = Except.ok b ∧
      (insertPendingBooking exDB 1 "Eve" "eve@x.com" none 1000).2.status = Status.pending ∧
      (createBooking exDB 1 "Eve" "eve@x.com" none 1000).2 =
        confirmBooking
          (markSlotUnavailable (insertPendingBooking exDB 1 "Eve" "eve@x.com" none 1000).1 1)
          (insertPendingBooking exDB 1 "Eve" "eve@x.com" none 1000).2.id 1000 ∧
      b.id = (insertPendingBooking exDB 1 "Eve" "eve@x.com" none 1000).2.id ∧
      b.status = Status.confirmed ∧ b.confirmedAt = some 1000 ∧
      (createBooking exDB 1 "Eve" "eve@x.com" none 1000).2.bookings = exDB.bookings ++ [b] ∧
      ∀ x ∈ (createBooking exDB 1 "Eve" "eve@x.com" none 1000).2.bookings,
        x ∈ exDB.bookings ∨ x.status ≠ Status.pending :=
  claim4_success_path exDB 1 "Eve" "eve@x.com" none 1000 exSlot (by decide) rfl rfl
    (by decide)

theorem contains_iff_mem_nat (l : List Nat) (a : Nat) : l.contains a = true ↔ a ∈ l := by
  simp

/-- C5: after one sweep, every reservation that was PENDING and older than
`now - timeout` is FAILED with the timeout failure reason and a stamped
failed-at, and its slot's availability is restored to true; every younger
PENDING reservation and every non-PENDING reservation is unchanged; slots not
referenced by an expired reservation are unchanged; and the returned count is
the size of the expired batch, all committed by the one transaction. -/
theorem claim5_sweep (db : DB) (m now : Int) :
    (∀ b ∈ db.bookings, b.status = Status.pending → b.bookingTime < now - m →
      failRow m now b ∈ (expirePendingBookings db m now).2.bookings ∧
      ∀ s ∈ db.slots, s.id = b.slotId →
        { s with is_available := true } ∈ (expirePendingBookings db m now).2.slots) ∧
    (∀ b ∈ db.bookings, b.status = Status.pending → ¬ b.bookingTime < now - m →
      b ∈ (expirePendingBookings db m now).2.bookings) ∧
    (∀ b ∈ db.bookings, b.status ≠ Status.pending →
      b ∈ (expirePendingBookings db m now).2.bookings) ∧
    (∀ s ∈ db.slots,
      (∀ b ∈ db.bookings, isExpiredPending m now b = true → b.slotId ≠ s.id) →
      s ∈ (expirePendingBookings db m now).2.slots) ∧
    (expirePendingBookings db m now).1 =
      (db.bookings.filter (isExpiredPending m now)).length := by
  refine ⟨?_, ?_, ?_, ?_, rfl⟩
  · intro b hb hp ht
    have hstale : isExpiredPending m now b = true := by
      simp [isExpiredPending, hp, ht]
    constructor
    · have hmem := List.mem_map_of_mem (failExpired m now) hb
      rw [show failExpired m now b = failRow m now b by
        unfold failExpired; rw [if_pos hstale]] at hmem
      exact hmem
    · intro s hs hsid
      have hin : s.id ∈ (db.bookings.filter (isExpiredPending m now)).map Booking.slotId := by
        rw [hsid]
        exact List.mem_map_of_mem Booking.slotId (List.mem_filter.mpr ⟨hb, hstale⟩)
      have hcont : ((db.bookings.filter (isExpiredPending m now)).map Booking.slotId).contains
          s.id = true := (contains_iff_mem_nat _ _).mpr hin
      have hmem := List.mem_map_of_mem
        (fun s2 : Slot => if ((db.bookings.filter (isExpiredPending m now)).map
          Booking.slotId).contains s2.id then { s2 with is_available := true } else s2) hs
      simp only [hcont, if_true] at hmem
      exact hmem
  · intro b hb hp ht
    have hns : isExpiredPending m now b = false := by
      simp [isExpiredPending, ht]
    have hmem := List.mem_map_of_mem (failExpired m now) hb
    rw [show failExpired m now b = b by unfold failExpired; rw [if_neg (by simp [hns])]] at hmem
    exact hmem
  · intro b hb hp
    have hns : isExpiredPending m now b = false := by
      unfold isExpiredPending
      rw [beq_eq_false_iff_ne.mpr hp]
      rfl
    have hmem := List.mem_map_of_mem (failExpired m now) hb
    rw [show failExpired m now b = b by unfold failExpired; rw [if_neg (by simp [hns])]] at hmem
    exact hmem
  · intro s hs hnone
    have hnotin : s.id ∉ (db.bookings.filter (isExpiredPending m now)).map Booking.slotId := by
      intro hcon
      obtain ⟨b, hbf, hbs⟩ := List.mem_map.mp hcon
      have hbmem := (List.mem_filter.mp hbf).1
      have hbst := (List.mem_filter.mp hbf).2
      exact hnone b hbmem hbst hbs
    have hcont : ((db.bookings.filter (isExpiredPending m now)).map Booking.slotId).contains
        s.id = false := by
      by_contra hcon
      rw [Bool.not_eq_false] at hcon
      exact hnotin ((contains_iff_mem_nat _ _).mp hcon)
    have hmem := List.mem_map_of_mem
      (fun s2 : Slot => if ((db.bookings.filter (isExpiredPending m now)).map
        Booking.slotId).contains s2.id then { s2 with is_available := true } else s2) hs
    simp only [hcont, Bool.false_eq_true, if_false] at hmem
    exact hmem

/-- C5 witness: sweeping with timeout 2 at instant 100 fails the stale
PENDING booking (bookingTime 0), frees its slot, leaves the fresh PENDING
booking (bookingTime 99) untouched, and reports one reclaimed row. -/
theorem claim5_witness :
    (failRow 2 100 exPendingOld ∈ (expirePendingBookings exDBPending 2 100).2.bookings) ∧
    ({ exSlot with is_available := true } ∈
      (expirePendingBookings exDBPending 2 100).2.slots) ∧
    (exPendingNew ∈ (expirePendingBookings exDBPending 2 100).2.bookings) ∧
    (expirePendingBookings exDBPending 2 100).1 = 1 := by
  have h := claim5_sweep exDBPending 2 100
  refine ⟨(h.1 exPendingOld (by decide) rfl (by decide)).1, ?_, ?_, ?_⟩
  · exact (h.1 exPendingOld (by decide) rfl (by decide)).2
      { exSlot with is_available := false } (by decide) rfl
  · exact h.2.1 exPendingNew (by decide) rfl (by decide)
  · rw [h.2.2.2.2]
    rfl

/-- C6: cancel fails with NotFound when the reservation is absent and with
InvalidState "already cancelled" when it is already CANCELLED, each error
rolling back; otherwise, within the one transaction, it sets the reservation
to CANCELLED and restores its slot's availability to true, so that after
cancelling a CONFIRMED reservation a subsequent create on that
(future-scheduled) slot succeeds. -/
theorem claim6_cancel (db : DB) (rid : Nat) :
    (findBooking db rid = none →
      (cancelBooking db rid).1 = Except.error CancelError.bookingNotFound ∧
      (cancelBooking db rid).2 = db) ∧
    (∀ b, findBooking db rid = some b → b.status = Status.cancelled →
      (cancelBooking db rid).1 = Except.error CancelError.alreadyCancelled ∧
      (cancelBooking db rid).2 = db) ∧
    (∀ b, findBooking db rid = some b → b.status ≠ Status.cancelled →
      (cancelBooking db rid).1 = Except.ok () ∧
      { b with status := Status.cancelled } ∈ (cancelBooking db rid).2.bookings ∧
      ∀ s ∈ db.slots, s.id = b.slotId →
        { s with is_available := true } ∈ (cancelBooking db rid).2.slots) ∧
    (∀ b slot (now2 : Int) (n e : String) (p : Option String),
      findBooking db rid = some b → b.status = Status.confirmed →
      findSlot db b.slotId = some slot → ¬ slot.slotDateTime < now2 →
      ∃ b2, (createBooking (cancelBooking db rid).2 b.slotId n e p now2).1 =
          Except.ok b2 ∧ b2.status = Status.confirmed) := by
  refine ⟨?_, ?_, ?_, ?_⟩
  · intro h
    rw [cancelBooking_notFound_eq db rid h]
    exact ⟨rfl, rfl⟩
  · intro b h hc
    rw [cancelBooking_already_eq db rid b h hc]
    exact ⟨rfl, rfl⟩
  · intro b h hc
    rw [cancelBooking_success_eq db rid b h hc]
    obtain ⟨hbmem, hbid⟩ := findBooking_props db rid b h
    refine ⟨rfl, ?_, ?_⟩
    · exact mem_updateById_of_pred Booking.id rid _ db.bookings b hbmem
        (beq_iff_eq.mpr hbid)
    · intro s hs hsid
      exact mem_updateById_of_pred Slot.id b.slotId _ db.slots s hs
        (beq_iff_eq.mpr hsid)
  · intro b slot now2 n e p hfb hconf hfs hfut
    have hne : b.status ≠ Status.cancelled := by
      rw [hconf]
      intro hcon
      exact Status.noConfusion hcon
    have hcs := cancelBooking_success_eq db rid b hfb hne
    have hfind2 : findSlot (cancelBooking db rid).2 b.slotId =
        some { slot with is_available := true } := by
      rw [hcs]
      show (updateById Slot.id b.slotId (fun s => { s with is_available := true })
        db.slots).find? (fun s => s.id == b.slotId) = _
      rw [find?_updateById_self Slot.id b.slotId
        (fun s => { s with is_available := true }) (fun a => rfl) db.slots]
      rw [show db.slots.find? (fun s => s.id == b.slotId) = some slot from hfs]
      rfl
    have hcb := createBooking_success_eq (cancelBooking db rid).2 b.slotId n e p now2
      { slot with is_available := true } hfind2 rfl hfut
    exact ⟨confirmedRow
        (insertPendingBooking (cancelBooking db rid).2 b.slotId n e p now2).2 now2,
      by rw [hcb]; rfl, rfl⟩

/-- C6 witness: Ann's CONFIRMED booking of the example slot is cancelled
successfully, and Bob's subsequent create on the freed slot succeeds. -/
theorem claim6_witness :
    (cancelBooking exDBAfterAnn 1).1 = Except.ok () ∧
    ∃ b2, (createBooking (cancelBooking exDBAfterAnn 1).2 1 "Bob" "bob@x.com" none 600).1 =
        Except.ok b2 ∧ b2.status = Status.confirmed := by
  have h := claim6_cancel exDBAfterAnn 1
  have hfb : findBooking exDBAfterAnn 1 = some exAnnBooking := rfl
  exact ⟨(h.2.2.1 exAnnBooking hfb (by decide)).1,
    h.2.2.2 exAnnBooking { exSlot with is_available := false } 600 "Bob" "bob@x.com" none
      hfb rfl rfl (by decide)⟩

/-- C9: the sweep is idempotent — running `expirePendingBookings` a second
time in immediate succession (same timeout and instant, no rows arriving in
between) leaves the state of the first run unchanged and reports zero
reclaimed rows. -/
theorem claim9_sweep_idempotent (db : DB) (m now : Int) :
    expirePendingBookings (expirePendingBookings db m now).2 m now =
      (0, (expirePendingBookings db m now).2) := by
  apply expirePendingBookings_no_stale
  intro b hb
  have hb2 : b ∈ db.bookings.map (failExpired m now) := hb
  obtain ⟨y, hy, rfl⟩ := List.mem_map.mp hb2
  by_cases hst : isExpiredPending m now y = true
  · rw [show failExpired m now y = failRow m now y by
      unfold failExpired; rw [if_pos hst]]
    rfl
  · rw [show failExpired m now y = y by
      unfold failExpired; rw [if_neg hst]]
    simpa using hst

/-- C10: cancelling a FAILED reservation succeeds — it becomes CANCELLED and
the referenced slot's availability is set to true unconditionally, even when
that slot has meanwhile been claimed by a different CONFIRMED reservation. -/
theorem claim10_cancel_failed (db : DB) (rid : Nat) (b : Booking)
    (hfb : findBooking db rid = some b) (hf : b.status = Status.failed) :
    (cancelBooking db rid).1 = Except.ok () ∧
    { b with status := Status.cancelled } ∈ (cancelBooking db rid).2.bookings ∧
    ∀ s ∈ db.slots, s.id = b.slotId →
      { s with is_available := true } ∈ (cancelBooking db rid).2.slots := by
  have hne : b.status ≠ Status.cancelled := by
    rw [hf]
    intro hcon
    exact Status.noConfusion hcon
  rw [cancelBooking_success_eq db rid b hfb hne]
  obtain ⟨hbmem, hbid⟩ := findBooking_props db rid b hfb
  refine ⟨rfl, ?_, ?_⟩
  · exact mem_updateById_of_pred Booking.id rid _ db.bookings b hbmem
      (beq_iff_eq.mpr hbid)
  · intro s hs hsid
    exact mem_updateById_of_pred Slot.id b.slotId _ db.slots s hs
      (beq_iff_eq.mpr hsid)

/-- C10 witness: in a state where booking 1 is FAILED on slot 1 and booking 2
has since re-claimed slot 1 as CONFIRMED, cancelling booking 1 succeeds and
frees slot 1 even though booking 2 is still CONFIRMED on it. -/
theorem claim10_witness :
    (cancelBooking exDBFailed 1).1 = Except.ok () ∧
    ({ exFailedBooking with status := Status.cancelled } ∈
      (cancelBooking exDBFailed 1).2.bookings) ∧
    ({ exSlot with is_available := true } ∈ (cancelBooking exDBFailed 1).2.slots) ∧
    exConfirmedBooking ∈ (cancelBooking exDBFailed 1).2.bookings := by
  have h := claim10_cancel_failed exDBFailed 1 exFailedBooking rfl rfl
  refine ⟨h.1, h.2.1, ?_, ?_⟩
  · exact h.2.2 { exSlot with is_available := false } (by decide) rfl
  · decide

/-- C7: in every state reachable from a fresh database (administratively
created slots with distinct ids, all available, no bookings yet) by any
sequence of create, cancel and sweep calls, a slot's availability flag is
false iff exactly one reservation with status in PENDING/CONFIRMED references
it, and no slot ever has more than one such active reservation. -/
theorem claim7_slot_invariant (slots0 : List Slot)
    (hnd : (slots0.map Slot.id).Nodup)
    (hav : ∀ s ∈ slots0, s.is_available = true) (l : List Step) :
    ∀ s ∈ (runSteps (initDB slots0) l).slots,
      (s.is_available = false ↔ activeCount (runSteps (initDB slots0) l) s.id = 1) ∧
      activeCount (runSteps (initDB slots0) l) s.id ≤ 1 :=
  (goodState_runSteps l (initDB slots0) (goodState_initDB slots0 hnd hav)).2.2

/-- C7 witness: after book / cancel / re-book on the example slot, the slot is
unavailable and referenced by exactly one active reservation. -/
theorem claim7_witness :
    (({ exSlot with is_available := false } : Slot).is_available = false ↔
      activeCount (runSteps (initDB [exSlot]) exSteps)
        ({ exSlot with is_available := false } : Slot).id = 1) ∧
    activeCount (runSteps (initDB [exSlot]) exSteps)
      ({ exSlot with is_available := false } : Slot).id ≤ 1 :=
  claim7_slot_invariant [exSlot] (by decide) (by decide) exSteps
    { exSlot with is_available := false } (by decide)

/-- C8: along any run of create, cancel and sweep calls from a fresh
database, one more call moves each reservation's status only along the
allowed edges (identity, PENDING to CONFIRMED, PENDING to FAILED, CONFIRMED
to CANCELLED, PENDING to CANCELLED); in particular no reservation ever
re-enters PENDING from another status. -/
theorem claim8_lifecycle_monotonicity (slots0 : List Slot)
    (hnd : (slots0.map Slot.id).Nodup)
    (hav : ∀ s ∈ slots0, s.is_available = true) (l : List Step) (st : Step)
    (b : Booking) (hb : b ∈ (runSteps (initDB slots0) l).bookings)
    (b2 : Booking) (hb2 : b2 ∈ (applyStep (runSteps (initDB slots0) l) st).bookings)
    (hid : b2.id = b.id) :
    allowedEdge b.status b2.status ∧
    (b2.status = Status.pending → b.status = Status.pending) := by
  obtain ⟨⟨hslotnd, hbooknd, hfresh⟩, hstatus, hinv⟩ :=
    goodState_runSteps l (initDB slots0) (goodState_initDB slots0 hnd hav)
  have hsame : ∀ db2 : DB, db2.bookings = (runSteps (initDB slots0) l).bookings →
      b2 ∈ db2.bookings →
      allowedEdge b.status b2.status ∧
      (b2.status = Status.pending → b.status = Status.pending) := by
    intro db2 heqb hmem
    rw [heqb] at hmem
    have : b2 = b := nodup_mem_eq_of_id_eq Booking.id _ hbooknd b2 hmem b hb hid
    rw [this]
    exact ⟨Or.inl rfl, fun h => h⟩
  cases st with
  | create sid n e p now =>
    simp only [applyStep] at hb2
    rcases hfind : findSlot (runSteps (initDB slots0) l) sid with _ | slot
    · rw [createBooking_notFound_eq _ sid n e p now hfind] at hb2
      exact hsame _ rfl hb2
    · by_cases havs : slot.is_available = true
      · by_cases hpast : slot.slotDateTime < now
        · rw [createBooking_past_eq _ sid n e p now slot hfind havs hpast] at hb2
          exact hsame _ rfl hb2
        · obtain ⟨hres, hslots, hbooks, hnext⟩ :=
            createBooking_success_state _ sid n e p now slot hfresh hfind havs hpast
          rw [hbooks] at hb2
          rcases List.mem_append.mp hb2 with hb2 | hb2
          · have : b2 = b := nodup_mem_eq_of_id_eq Booking.id _ hbooknd b2 hb2 b hb hid
            rw [this]
            exact ⟨Or.inl rfl, fun h => h⟩
          · have hcid : b2.id = (runSteps (initDB slots0) l).nextBookingId := by
              rw [List.mem_singleton.mp hb2]
              rfl
            rw [hid] at hcid
            exact absurd hcid (Nat.ne_of_lt (hfresh b hb))
      · rw [createBooking_unavailable_eq _ sid n e p now slot hfind
          (Bool.not_eq_true _ ▸ havs)] at hb2
        exact hsame _ rfl hb2
  | cancel bid =>
    simp only [applyStep] at hb2
    rcases hfb : findBooking (runSteps (initDB slots0) l) bid with _ | bdel
    · rw [cancelBooking_notFound_eq _ bid hfb] at hb2
      exact hsame _ rfl hb2
    · by_cases hc : bdel.status = Status.cancelled
      · rw [cancelBooking_already_eq _ bid bdel hfb hc] at hb2
        exact hsame _ rfl hb2
      · rw [cancelBooking_success_eq _ bid bdel hfb hc] at hb2
        have hdelmem := (findBooking_props _ bid bdel hfb).1
        have hdelid := (findBooking_props _ bid bdel hfb).2
        have hdelconf : bdel.status = Status.confirmed := by
          rcases hstatus bdel hdelmem with h | h
          · exact h
          · exact absurd h hc
        obtain ⟨y, hy, heq⟩ := List.mem_map.mp hb2
        by_cases hyb : (y.id == bid) = true
        · rw [if_pos hyb] at heq
          have hyeq : y = bdel := nodup_mem_eq_of_id_eq Booking.id _ hbooknd y hy
            bdel hdelmem (by rw [beq_iff_eq.mp hyb, hdelid])
          have hbeq : b = bdel := nodup_mem_eq_of_id_eq Booking.id _ hbooknd b hb
            bdel hdelmem (by rw [← hid, ← heq, hyeq])
          have hb2st : b2.status = Status.cancelled := by
            rw [← heq]
          have hbst : b.status = Status.confirmed := by
            rw [hbeq, hdelconf]
          refine ⟨?_, ?_⟩
          · rw [hb2st, hbst]
            exact Or.inr (Or.inr (Or.inr (Or.inl ⟨rfl, rfl⟩)))
          · rw [hb2st]
            intro hcon
            exact Status.noConfusion hcon
        · rw [if_neg hyb] at heq
          rw [← heq] at hid ⊢
          have : y = b := nodup_mem_eq_of_id_eq Booking.id _ hbooknd y hy b hb hid
          rw [this]
          exact ⟨Or.inl rfl, fun h => h⟩
  | sweep m now =>
    simp only [applyStep] at hb2
    have hns : ∀ x ∈ (runSteps (initDB slots0) l).bookings,
        isExpiredPending m now x = false := by
      intro x hx
      rcases hstatus x hx with h | h <;> simp [isExpiredPending, h]
    rw [expirePendingBookings_no_stale _ m now hns] at hb2
    exact hsame _ rfl hb2

/-- C8 witness: after Ann books the example slot, cancelling her reservation
moves it along the CONFIRMED-to-CANCELLED edge, not back to PENDING. -/
theorem claim8_witness :
    allowedEdge exAnnBooking.status
      ({ exAnnBooking with status := Status.cancelled } : Booking).status ∧
    (({ exAnnBooking with status := Status.cancelled } : Booking).status =
        Status.pending → exAnnBooking.status = Status.pending) :=
  claim8_lifecycle_monotonicity [exSlot] (by decide) (by decide)
    [Step.create 1 "Ann" "ann@x.com" none 500] (Step.cancel 1)
    exAnnBooking (by decide) { exAnnBooking with status := Status.cancelled }
    (by decide) rfl

end Appt
